import Mathlib

/-!
Verification of the markdown token renderer and its source-extraction pass
(`MarkdownTokens.svelte`): the token data model, the extraction/filter scan
over the top-level token sequence, the CSV export handler, heading tags,
table cell alignment styles, citation-title truncation, and the dispatch
loop of the renderer.

Machine strings are modelled as Lean `String`; the JavaScript string
operations used by the component (`trim`, `toLowerCase`, `startsWith`,
`replace(/"/g,'""')`, `slice`, template interpolation of `null`) are
embedded as explicit recursive functions over the character list, matching
the ASCII behaviour the component relies on.
-/

/-- A markdown source record extracted from a recognized "sources:" block:
`{ title, url }`. -/
structure SourceRecord where
  title : String
  url : String
deriving DecidableEq, Repr

mutual

/-- A parsed markdown block/inline token, as produced by the external
parser (`marked`) and consumed by `MarkdownTokens.svelte`.  Each variant
carries the fields the component reads: `heading` has `depth` and inline
children; `code` has the raw source, language and text; `table` has header
cells, a per-column alignment array (entries are `null` when a column has
no alignment, modelled as `none`) and rows of cells; `list` has the
ordered flag, start index, loose flag and items; `paragraph`/`strong`
carry nested inline children plus their text; `text` optionally carries
nested inline children; `link` carries display text and href;
`inlineKatex`/`blockKatex` carry the expression and display-mode flag;
`unknown` stands for any token kind matching no dispatch branch. -/
inductive Tok where
  | hr
  | heading (depth : Nat) (tokens : List Tok)
  | code (raw : String) (lang : String) (text : String)
  | table (header : List Cell) (align : List (Option String)) (rows : List (List Cell))
  | blockquote (tokens : List Tok)
  | list (ordered : Bool) (start : Nat) (loose : Bool) (items : List ListItem)
  | details (summary : String) (text : String)
  | html (text : String)
  | iframe (fileId : String)
  | paragraph (tokens : List Tok) (text : String)
  | text (tokens : Option (List Tok)) (text : String)
  | strong (tokens : List Tok) (text : String)
  | link (text : String) (href : String)
  | inlineKatex (text : String) (displayMode : Bool)
  | blockKatex (text : String) (displayMode : Bool)
  | space
  | unknown (kind : String)

/-- A list item token: nested child tokens, raw text, and the task/checked
flags the list renderer reads. -/
inductive ListItem where
  | mk (tokens : List Tok) (text : String) (task : Bool) (checked : Bool)

/-- A table cell: nested inline tokens plus the cell's flattened text. -/
inductive Cell where
  | mk (tokens : List Tok) (text : String)

end

/-- Child tokens of a list item (`item.tokens`). -/
def ListItem.tokens : ListItem → List Tok
  | .mk ts _ _ _ => ts

/-- Raw text of a list item (`item.text`). -/
def ListItem.text : ListItem → String
  | .mk _ s _ _ => s

/-- Child tokens of a table cell (`cell.tokens`). -/
def Cell.tokens : Cell → List Tok
  | .mk ts _ => ts

/-- Flattened text of a table cell (`cell.text`). -/
def Cell.text : Cell → String
  | .mk _ s => s

/-- The `.text` property read on an arbitrary token (used by the CSV
export when flattening a cell's child tokens).  Kinds without a text
field stringify to the empty string, matching `Array.prototype.join`'s
treatment of `undefined`. -/
def Tok.textOf : Tok → String
  | .hr => ""
  | .heading _ _ => ""
  | .code _ _ t => t
  | .table _ _ _ => ""
  | .blockquote _ => ""
  | .list _ _ _ _ => ""
  | .details _ t => t
  | .html t => t
  | .iframe _ => ""
  | .paragraph _ t => t
  | .text _ t => t
  | .strong _ t => t
  | .link t _ => t
  | .inlineKatex t _ => t
  | .blockKatex t _ => t
  | .space => ""
  | .unknown _ => ""

/-- ASCII whitespace trimmed by JavaScript `String.prototype.trim`
(the component's trigger strings only involve ASCII whitespace). -/
def isJSWhitespace (c : Char) : Bool :=
  c = ' ' || c = '\t' || c = '\n' || c = '\r'

/-- JavaScript `s.trim()`: strip whitespace from both ends. -/
def jsTrim (s : String) : String :=
  (((s.toList.dropWhile isJSWhitespace).reverse.dropWhile isJSWhitespace).reverse).asString

/-- JavaScript `s.toLowerCase()` restricted to ASCII letters, which is all
the trigger comparison against the ASCII literal "sources:" depends on. -/
def jsToLower (s : String) : String :=
  (s.toList.map Char.toLower).asString

/-- Does the character list `hay` start with `needle`? -/
def listStarts : List Char → List Char → Bool
  | [], _ => true
  | _ :: _, [] => false
  | c :: cs, d :: ds => c = d && listStarts cs ds

/-- JavaScript `s.startsWith(p)`. -/
def strStarts (s p : String) : Bool :=
  listStarts p.toList s.toList

/-- The trigger test from the extraction/filter scans: the token is a
paragraph whose single inline child is a single `strong` node whose single
child is a `text` node whose text, trimmed and lower-cased, starts with
"sources:". -/
def isTrigger : Tok → Bool
  | .paragraph [Tok.strong [Tok.text _ s] _] _ =>
      strStarts (jsToLower (jsTrim s)) "sources:"
  | _ => false

/-- Is the token a `list` token (`t.type === 'list'`)? -/
def isListTok : Tok → Bool
  | .list _ _ _ _ => true
  | _ => false

/-- The items of a `list` token (`listToken.items`). -/
def itemsOf : Tok → List ListItem
  | .list _ _ _ items => items
  | _ => []

/-- The first `link`-type token of an item's child tokens, returning its
display text and href (`(item.tokens || []).find(t => t.type === 'link')`). -/
def firstLink : List Tok → Option (String × String)
  | [] => none
  | Tok.link t h :: _ => some (t, h)
  | _ :: rest => firstLink rest

/-- The literal regular expression match for a whole-string markdown link
`[Title](URL)`: the pattern is anchored at both ends, the title is one or
more characters none of which is a closing bracket, and the URL is one or
more characters none of which is a closing parenthesis. -/
def matchLink (s : String) : Option (String × String) :=
  match s.toList with
  | [] => none
  | c :: cs =>
    if c = '[' then
      let tpart := cs.takeWhile (fun d => d ≠ ']')
      match cs.dropWhile (fun d => d ≠ ']') with
      | ']' :: '(' :: cs2 =>
        let upart := cs2.takeWhile (fun d => d ≠ ')')
        match cs2.dropWhile (fun d => d ≠ ')') with
        | [')'] =>
          if tpart.isEmpty || upart.isEmpty then none
          else some (tpart.asString, upart.asString)
        | _ => none
      | _ => none
    else none

/-- Extraction of one source record from one list item: prefer a nested
`link` token (display text as title, href as url); otherwise, when the
item's raw text is non-empty (truthy), match it against the whole-string
`[Title](URL)` pattern; items matching neither yield nothing. -/
def extractItem (it : ListItem) : Option SourceRecord :=
  match firstLink it.tokens with
  | some (t, u) => some ⟨t, u⟩
  | none =>
    if it.text = "" then none
    else (matchLink it.text).map (fun p => ⟨p.1, p.2⟩)

/-- The extraction scan over the top-level token sequence
(`extractAllSourcesFromTokens`): at a trigger paragraph whose next token
is a list, collect a record per matching item and skip both tokens; at a
trigger paragraph not followed by a list, advance past the paragraph
only; any other token is skipped.  Children of non-matching tokens are
never visited. -/
def extractAllSourcesFromTokens : List Tok → List SourceRecord
  | [] => []
  | [_] => []
  | t :: l :: rest =>
    if isTrigger t then
      if isListTok l then
        (itemsOf l).filterMap extractItem ++ extractAllSourcesFromTokens rest
      else
        extractAllSourcesFromTokens (l :: rest)
    else extractAllSourcesFromTokens (l :: rest)

/-- The filter scan over the top-level token sequence
(`filterOutAllSourcesSections`): a trigger paragraph followed by a list
drops both; a trigger paragraph not followed by a list is itself dropped
(the loop `continue`s without pushing it); every other token is emitted
unchanged, in order. -/
def filterOutAllSourcesSections : List Tok → List Tok
  | [] => []
  | [t] => if isTrigger t then [] else [t]
  | t :: l :: rest =>
    if isTrigger t then
      if isListTok l then filterOutAllSourcesSections rest
      else filterOutAllSourcesSections (l :: rest)
    else t :: filterOutAllSourcesSections (l :: rest)

/-- The reactive binding `extractedSources` of the component. -/
def extractedSources (tokens : List Tok) : List SourceRecord :=
  extractAllSourcesFromTokens tokens

/-- The reactive binding `filteredTokens`: the filter runs only when at
least one source record was extracted; otherwise the original token
sequence is rendered as-is. -/
def filteredTokens (tokens : List Tok) : List Tok :=
  if (extractedSources tokens).length > 0 then filterOutAllSourcesSections tokens
  else tokens

/-- The trigger paragraph shape: a paragraph holding a single strong node
holding a single text node with the given text. -/
def trigParagraph (s : String) : Tok :=
  Tok.paragraph [Tok.strong [Tok.text none s] s] s

/-- A list item whose sole child token is a markdown link token. -/
def mkLinkItem (p : String × String) : ListItem :=
  ⟨[Tok.link p.1 p.2], "", false, false⟩

/-- Side condition for splitting the scan at a sequence boundary: the
last token of the left part (if any) is not a trigger paragraph, so the
scan never looks across the boundary for a following list. -/
def notTriggerLast : List Tok → Bool
  | [] => true
  | [t] => !isTrigger t
  | _ :: t :: ts => notTriggerLast (t :: ts)

/-- Side condition for a dangling trigger: the following token (if any)
is not a list token. -/
def headNotList : List Tok → Bool
  | [] => true
  | t :: _ => !isListTok t

/-- A segment of a top-level token sequence: either a single token that is
not a trigger paragraph, or a recognized sources pair — a trigger
paragraph immediately followed by a list whose items are markdown link
tokens with the given titles and urls. -/
inductive Seg where
  | plain (t : Tok)
  | pair (s : String) (links : List (String × String))

/-- The tokens a segment contributes to the top-level sequence. -/
def segTokens : Seg → List Tok
  | .plain t => [t]
  | .pair s links => [trigParagraph s, Tok.list false 1 false (links.map mkLinkItem)]

/-- Flatten a segment decomposition into a token sequence. -/
def flattenSegs : List Seg → List Tok
  | [] => []
  | s :: rest => segTokens s ++ flattenSegs rest

/-- Well-formedness of a segment: a plain token is not a trigger
paragraph; a pair's paragraph text does trigger. -/
def segWF : Seg → Bool
  | .plain t => !isTrigger t
  | .pair s _ => isTrigger (trigParagraph s)

/-- The source records a segment contributes. -/
def segRecords : Seg → List SourceRecord
  | .plain _ => []
  | .pair _ links => links.map (fun p => ⟨p.1, p.2⟩)

/-- Concatenated records of a segment decomposition. -/
def flattenRecords : List Seg → List SourceRecord
  | [] => []
  | s :: rest => segRecords s ++ flattenRecords rest

/-- The tokens a segment leaves in the filtered sequence: a plain token
survives, a matched pair is removed whole. -/
def segKept : Seg → List Tok
  | .plain t => [t]
  | .pair _ _ => []

/-- Concatenated surviving tokens of a segment decomposition. -/
def flattenKept : List Seg → List Tok
  | [] => []
  | s :: rest => segKept s ++ flattenKept rest

/-- The `headerComponent` helper of the renderer: the element tag for a
heading token is the letter h concatenated with the token's depth, with
no clamping. -/
def headerComponent (depth : Nat) : String :=
  "h" ++ toString depth

/-- The six valid HTML heading element tags. -/
def validHeadingTags : List String :=
  ["h1", "h2", "h3", "h4", "h5", "h6"]

/-- JavaScript truthiness of a possibly-null string (a present non-empty
string is truthy; `null` and the empty string are falsy). -/
def jsTruthyStr : Option String → Bool
  | some s => !(s = "")
  | none => false

/-- JavaScript template interpolation of a possibly-null string
(`null` interpolates as the text "null"). -/
def jsTemplateStr : Option String → String
  | some s => s
  | none => "null"

/-- The inline style computed for a table header or body cell from the
column's alignment entry, exactly as written in the component:
`align ? '' : `text-align: ${align}``.  Note the branches: a truthy
alignment yields the empty style and a missing alignment yields a
"text-align: null" style. -/
def cellAlignStyle (a : Option String) : String :=
  if jsTruthyStr a then "" else "text-align: " ++ jsTemplateStr a

/-- The column alignment entry at an index (`token.align[i]`, with `null`
entries modelled as `none`; an out-of-range read is likewise falsy and is
modelled as `none`). -/
def alignAt (align : List (Option String)) (i : Nat) : Option String :=
  align.getD i none

/-- Duplicate every double-quote character (`s.replace(/"/g, '""')`). -/
def dupQuotes : List Char → List Char
  | [] => []
  | c :: cs => if c = '"' then '"' :: '"' :: dupQuotes cs else c :: dupQuotes cs

/-- CSV-quote one field: wrap in double quotes with embedded double
quotes doubled. -/
def csvEscapeField (s : String) : String :=
  "\"" ++ (dupQuotes s.toList).asString ++ "\""

/-- JavaScript `Array.prototype.join(sep)` on a list of strings. -/
def joinWith (sep : String) : List String → String
  | [] => ""
  | [x] => x
  | x :: xs => x ++ sep ++ joinWith sep xs

/-- The flattened text of a table body cell for CSV export:
`cell.tokens.map(t => t.text).join('')`. -/
def cellText (c : Cell) : String :=
  joinWith "" (c.tokens.map Tok.textOf)

/-- The UTF-8 byte-order mark prefixed to the CSV content. -/
def bomStr : String :=
  (Char.ofNat 0xFEFF).toString

/-- The CSV export handler: on a table token, produce the file content
(header cell texts and per-row flattened cell texts, each field
CSV-quoted, fields joined by commas, rows by newlines, the whole prefixed
by the BOM) together with the file name `table-{id}-{tokenIdx}.csv`. -/
def exportTableToCSVHandler (tok : Tok) (id : String) (tokenIdx : Nat) :
    Option (String × String) :=
  match tok with
  | .table header _ rows =>
    let h := header.map (fun c => csvEscapeField c.text)
    let rs := rows.map (fun row => row.map (fun cell => csvEscapeField (cellText cell)))
    let csvContent := joinWith "\n" ((h :: rs).map (joinWith ","))
    some (bomStr ++ csvContent, "table-" ++ id ++ "-" ++ toString tokenIdx ++ ".csv")
  | _ => none

/-- The citation-card title shown for an extracted source record:
`title.length > 48 ? `${title.slice(0, 45)}...` : title`. -/
def citationTitle (title : String) : String :=
  if title.length > 48 then (title.toList.take 45).asString ++ "..." else title

/-- Pair each element of a list with its index, starting at `i`
(the `each ... as x, idx` loops of the template). -/
def idxFrom {α : Type} : Nat → List α → List (Nat × α)
  | _, [] => []
  | i, x :: xs => (i, x) :: idxFrom (i + 1) xs

/-- Does the raw source of a code token contain a fenced-code delimiter
(`token.raw.includes('```')`)?  The backtick character is written by
code point. -/
def containsFence (s : String) : Bool :=
  go s.toList
where
  fence : List Char := [Char.ofNat 96, Char.ofNat 96, Char.ofNat 96]
  go : List Char → Bool
    | [] => false
    | c :: cs => listStarts fence (c :: cs) || go cs

/-- One rendered element of the token renderer.  Each constructor mirrors
one dispatch branch of the template; elements that recurse carry the
derived child identifier together with the child token sequence handed to
the recursive render (the recursion itself is determined by those two
values).  External collaborators (code block, inline tokens, KaTeX, raw
HTML, the alert classifier, `unescapeHtml`) are opaque: the element
carries exactly the inputs handed to them. -/
inductive Output where
  | hrEl
  | headingEl (tag : String) (childId : String) (children : List Tok)
  | codeBlockEl (childId : String) (lang : String) (code : String)
  | rawTextEl (text : String)
  | tableEl (id : String) (tokenIdx : Nat)
      (headerCells : List (String × List Tok))
      (bodyRows : List (List (String × List Tok)))
  | blockquoteEl (childId : String) (children : List Tok)
  | listEl (ordered : Bool) (start : Nat) (loose : Bool)
      (childIdBase : String) (items : List ListItem)
  | detailsEl (summary : String) (rawBody : String)
  | htmlEl (id : String) (text : String)
  | iframeEl (fileId : String)
  | paragraphEl (childId : String) (children : List Tok)
  | textPEl (childId : String) (children : List Tok)
  | textInlineEl (childId : String) (children : List Tok)
  | textPRawEl (text : String)
  | textRawEl (text : String)
  | katexEl (content : String) (displayMode : Bool)
  | spaceEl

/-- The header cells of a rendered table: per header entry, the computed
alignment style (from the entry's column index) and the cell's inline
children. -/
def tableHeaderCells (align : List (Option String)) (header : List Cell) :
    List (String × List Tok) :=
  (idxFrom 0 header).map (fun p => (cellAlignStyle (alignAt align p.1), p.2.tokens))

/-- The body rows of a rendered table: per cell, the computed alignment
style (from the cell's column index) and the cell's inline children. -/
def tableBodyRows (align : List (Option String)) (rows : List (List Cell)) :
    List (List (String × List Tok)) :=
  rows.map (fun row => (idxFrom 0 row).map
    (fun p => (cellAlignStyle (alignAt align p.1), p.2.tokens)))

/-- Rendering of one token at its index in the each-loop, following the
dispatch chain of the template.  A token whose kind matches no branch
renders nothing (the else branch only logs).  Blockquote alert
classification is an external collaborator (out of scope); the blockquote
element carries the inputs of the recursive render. -/
def renderToken (id : String) (top : Bool) (tokenIdx : Nat) : Tok → List Output
  | .hr => [.hrEl]
  | .heading depth toks =>
      [.headingEl (headerComponent depth) (id ++ "-" ++ toString tokenIdx ++ "-h") toks]
  | .code raw lang text =>
      if containsFence raw then [.codeBlockEl (id ++ "-" ++ toString tokenIdx) lang text]
      else [.rawTextEl text]
  | .table header align rows =>
      [.tableEl id tokenIdx (tableHeaderCells align header) (tableBodyRows align rows)]
  | .blockquote toks => [.blockquoteEl (id ++ "-" ++ toString tokenIdx) toks]
  | .list ordered start loose items =>
      [.listEl ordered (if ordered then (if start = 0 then 1 else start) else start)
        loose (id ++ "-" ++ toString tokenIdx) items]
  | .details summary text => [.detailsEl summary text]
  | .html text => [.htmlEl id text]
  | .iframe fileId => [.iframeEl fileId]
  | .paragraph toks _ => [.paragraphEl (id ++ "-" ++ toString tokenIdx ++ "-p") toks]
  | .text toksOpt text =>
      match toksOpt with
      | some toks =>
          if top then [.textPEl (id ++ "-" ++ toString tokenIdx ++ "-t") toks]
          else [.textInlineEl (id ++ "-" ++ toString tokenIdx ++ "-p") toks]
      | none => if top then [.textPRawEl text] else [.textRawEl text]
  | .inlineKatex text dm => if text = "" then [] else [.katexEl text dm]
  | .blockKatex text dm => if text = "" then [] else [.katexEl text dm]
  | .space => [.spaceEl]
  | .strong _ _ => []
  | .link _ _ => []
  | .unknown _ => []

/-- The keyed each-loop of the template, rendering each token at its
index starting from `i`. -/
def renderTokensFrom (id : String) (top : Bool) : Nat → List Tok → List Output
  | _, [] => []
  | i, t :: ts => renderToken id top i t ++ renderTokensFrom id top (i + 1) ts

/-- Rendering of a full token sequence (indices from 0). -/
def renderTokens (id : String) (top : Bool) (ts : List Tok) : List Output :=
  renderTokensFrom id top 0 ts

/-- The last token of a two-or-longer sequence is the last of its tail. -/
theorem notTriggerLast_cons₂ (t u : Tok) (ts : List Tok) :
    notTriggerLast (t :: u :: ts) = notTriggerLast (u :: ts) := rfl

/-- Splitting the extraction and filter scans at a boundary whose left
part does not end in a trigger paragraph: both scans distribute over the
append, since the only lookahead happens after a trigger. -/
theorem scanSplitAux : ∀ (n : Nat) (a b : List Tok), a.length ≤ n → notTriggerLast a = true →
    extractAllSourcesFromTokens (a ++ b)
      = extractAllSourcesFromTokens a ++ extractAllSourcesFromTokens b
    ∧ filterOutAllSourcesSections (a ++ b)
      = filterOutAllSourcesSections a ++ filterOutAllSourcesSections b := by
  intro n
  induction n with
  | zero =>
    intro a b hlen _
    have ha : a = [] := List.eq_nil_of_length_eq_zero (Nat.le_zero.mp hlen)
    subst ha
    exact ⟨rfl, rfl⟩
  | succ n ih =>
    intro a b hlen hlast
    match a with
    | [] => exact ⟨rfl, rfl⟩
    | [t] =>
      have ht : isTrigger t = false := by simpa [notTriggerLast] using hlast
      cases b with
      | nil =>
        refine ⟨rfl, ?_⟩
        simp [filterOutAllSourcesSections, ht]
      | cons u b' =>
        simp [extractAllSourcesFromTokens, filterOutAllSourcesSections, ht]
    | t :: u :: a'' =>
      have hlast' : notTriggerLast (u :: a'') = true := hlast
      have h1 : (u :: a'').length ≤ n := by simp [List.length_cons] at hlen ⊢; omega
      cases ht : isTrigger t with
      | false =>
        have hrec := ih (u :: a'') b h1 hlast'
        simpa [extractAllSourcesFromTokens, filterOutAllSourcesSections, ht] using hrec
      | true =>
        cases hu : isListTok u with
        | true =>
          have hlast'' : notTriggerLast a'' = true := by
            cases a'' with
            | nil => rfl
            | cons v vs => exact hlast'
          have h2 : a''.length ≤ n := by simp [List.length_cons] at hlen ⊢; omega
          have hrec := ih a'' b h2 hlast''
          simp [extractAllSourcesFromTokens, filterOutAllSourcesSections, ht, hu,
            hrec.1, hrec.2]
        | false =>
          have hrec := ih (u :: a'') b h1 hlast'
          simpa [extractAllSourcesFromTokens, filterOutAllSourcesSections, ht, hu] using hrec

/-- The split lemma at its own length bound. -/
theorem scanSplit (a b : List Tok) (h : notTriggerLast a = true) :
    extractAllSourcesFromTokens (a ++ b)
      = extractAllSourcesFromTokens a ++ extractAllSourcesFromTokens b
    ∧ filterOutAllSourcesSections (a ++ b)
      = filterOutAllSourcesSections a ++ filterOutAllSourcesSections b :=
  scanSplitAux a.length a b le_rfl h

/-- A link-token item extracts to its title/url record. -/
theorem extractItem_mkLinkItem (p : String × String) :
    extractItem (mkLinkItem p) = some ⟨p.1, p.2⟩ := rfl

/-- Items that are all link tokens extract to their records in order. -/
theorem extract_linkItems (links : List (String × String)) :
    List.filterMap (extractItem ∘ mkLinkItem) links
      = links.map (fun p => (⟨p.1, p.2⟩ : SourceRecord)) := by
  induction links with
  | nil => rfl
  | cons p ps ih =>
    simp [List.filterMap_cons, Function.comp, extractItem_mkLinkItem, ih]

/-- Scanning one well-formed segment in front of a tail. -/
theorem scanSeg (s : Seg) (rest : List Tok) (hs : segWF s = true) :
    extractAllSourcesFromTokens (segTokens s ++ rest)
      = segRecords s ++ extractAllSourcesFromTokens rest
    ∧ filterOutAllSourcesSections (segTokens s ++ rest)
      = segKept s ++ filterOutAllSourcesSections rest := by
  cases s with
  | plain t =>
    have hb : (!isTrigger t) = true := hs
    have ht : isTrigger t = false := by simpa using hb
    have h := scanSplit [t] rest (by simpa [notTriggerLast] using ht)
    refine ⟨?_, ?_⟩
    · rw [show segTokens (Seg.plain t) = [t] from rfl, h.1]
      simp [segRecords, extractAllSourcesFromTokens]
    · rw [show segTokens (Seg.plain t) = [t] from rfl, h.2]
      simp [segKept, filterOutAllSourcesSections, ht]
  | pair s links =>
    have hs' : isTrigger (trigParagraph s) = true := by simpa [segWF] using hs
    have hsplit := scanSplit (segTokens (Seg.pair s links)) rest rfl
    refine ⟨?_, ?_⟩
    · rw [hsplit.1]
      simp [segTokens, segRecords, extractAllSourcesFromTokens, hs', isListTok,
        itemsOf, extract_linkItems]
    · rw [hsplit.2]
      simp [segTokens, segKept, filterOutAllSourcesSections, hs', isListTok]

/-- C1: over any top-level sequence decomposed into non-trigger tokens and
trigger-paragraph-plus-link-list pairs, `extractAllSourcesFromTokens`
returns exactly one record per link item, pairs taken in sequence order
and items in item order (an empty list contributes zero records), and
`filterOutAllSourcesSections` removes exactly the two tokens of every
pair, preserving all other tokens in order (each surviving token is
returned verbatim, nested children included). -/
theorem c1_sources_pairs_extracted_and_removed (segs : List Seg)
    (h : ∀ s ∈ segs, segWF s = true) :
    extractAllSourcesFromTokens (flattenSegs segs) = flattenRecords segs
    ∧ filterOutAllSourcesSections (flattenSegs segs) = flattenKept segs := by
  induction segs with
  | nil => exact ⟨rfl, rfl⟩
  | cons s rest ih =>
    have hs := h s (List.mem_cons_self _ _)
    have hrest := ih (fun x hx => h x (List.mem_cons_of_mem _ hx))
    have hseg := scanSeg s (flattenSegs rest) hs
    refine ⟨?_, ?_⟩
    · rw [show flattenSegs (s :: rest) = segTokens s ++ flattenSegs rest from rfl,
        hseg.1, hrest.1]
      rfl
    · rw [show flattenSegs (s :: rest) = segTokens s ++ flattenSegs rest from rfl,
        hseg.2, hrest.2]
      rfl

/-- C1 witness: a sequence with two sources blocks — one with two link
items, one with an empty list — extracts both records in order and drops
exactly the two pairs. -/
theorem c1_witness :
    extractAllSourcesFromTokens (flattenSegs
      [Seg.plain Tok.hr,
       Seg.pair "Sources:" [("T1", "U1"), ("T2", "U2")],
       Seg.plain Tok.space,
       Seg.pair "  sources: more" []])
      = [⟨"T1", "U1"⟩, ⟨"T2", "U2"⟩]
    ∧ filterOutAllSourcesSections (flattenSegs
      [Seg.plain Tok.hr,
       Seg.pair "Sources:" [("T1", "U1"), ("T2", "U2")],
       Seg.plain Tok.space,
       Seg.pair "  sources: more" []])
      = [Tok.hr, Tok.space] := by
  have h := c1_sources_pairs_extracted_and_removed
    [Seg.plain Tok.hr,
     Seg.pair "Sources:" [("T1", "U1"), ("T2", "U2")],
     Seg.plain Tok.space,
     Seg.pair "  sources: more" []] (by decide)
  exact ⟨h.1.trans rfl, h.2.trans rfl⟩

/-- C3: a sequence containing no trigger paragraph is returned unchanged
by `filterOutAllSourcesSections`, and `extractAllSourcesFromTokens`
returns no records from it. -/
theorem c3_no_trigger_identity (ts : List Tok)
    (h : ∀ t ∈ ts, isTrigger t = false) :
    filterOutAllSourcesSections ts = ts
    ∧ extractAllSourcesFromTokens ts = [] := by
  induction ts with
  | nil => exact ⟨rfl, rfl⟩
  | cons t rest ih =>
    have ht : isTrigger t = false := h t (List.mem_cons_self _ _)
    have hrest := ih (fun u hu => h u (List.mem_cons_of_mem _ hu))
    cases rest with
    | nil => simp [filterOutAllSourcesSections, extractAllSourcesFromTokens, ht]
    | cons u rest' =>
      simp [filterOutAllSourcesSections, extractAllSourcesFromTokens, ht,
        hrest.1, hrest.2]

/-- C3 witness: a concrete trigger-free sequence (a rule, an ordinary
paragraph and a list) survives the filter unchanged and yields no
records. -/
theorem c3_witness :
    filterOutAllSourcesSections
      [Tok.hr, Tok.paragraph [Tok.text none "hi"] "hi",
       Tok.list false 1 false [mkLinkItem ("T", "U")]]
      = [Tok.hr, Tok.paragraph [Tok.text none "hi"] "hi",
         Tok.list false 1 false [mkLinkItem ("T", "U")]]
    ∧ extractAllSourcesFromTokens
      [Tok.hr, Tok.paragraph [Tok.text none "hi"] "hi",
       Tok.list false 1 false [mkLinkItem ("T", "U")]]
      = [] :=
  c3_no_trigger_identity
    [Tok.hr, Tok.paragraph [Tok.text none "hi"] "hi",
     Tok.list false 1 false [mkLinkItem ("T", "U")]] (by decide)

/-- C4: both scans examine only the top-level sequence.  Any token `t`
that is not itself a top-level trigger paragraph — whatever its nested
children hold, in particular a sources paragraph-plus-list pair inside a
blockquote or a list item — contributes no extracted record, is not
removed, and is passed through verbatim (so its nested child sequences
are returned unchanged); the boundary hypothesis only excludes `t` being
consumed as the list of a top-level pair. -/
theorem c4_nested_pairs_ignored (a b : List Tok) (t : Tok)
    (ht : isTrigger t = false) (ha : notTriggerLast a = true) :
    extractAllSourcesFromTokens (a ++ t :: b)
      = extractAllSourcesFromTokens a ++ extractAllSourcesFromTokens b
    ∧ filterOutAllSourcesSections (a ++ t :: b)
      = filterOutAllSourcesSections a ++ t :: filterOutAllSourcesSections b := by
  have h1 := scanSplit a (t :: b) ha
  have h2 : extractAllSourcesFromTokens (t :: b) = extractAllSourcesFromTokens b
      ∧ filterOutAllSourcesSections (t :: b) = t :: filterOutAllSourcesSections b := by
    cases b with
    | nil => exact ⟨rfl, by simp [filterOutAllSourcesSections, ht]⟩
    | cons u b' => simp [extractAllSourcesFromTokens, filterOutAllSourcesSections, ht]
  rw [h1.1, h1.2, h2.1, h2.2]
  exact ⟨rfl, rfl⟩

/-- C4 witness: a blockquote whose children are a complete sources
paragraph-plus-list pair yields no record and survives the filter
verbatim between its neighbours. -/
theorem c4_witness :
    extractAllSourcesFromTokens
      [Tok.space,
       Tok.blockquote [trigParagraph "Sources:",
         Tok.list false 1 false [mkLinkItem ("T", "U")]],
       Tok.hr]
      = []
    ∧ filterOutAllSourcesSections
      [Tok.space,
       Tok.blockquote [trigParagraph "Sources:",
         Tok.list false 1 false [mkLinkItem ("T", "U")]],
       Tok.hr]
      = [Tok.space,
         Tok.blockquote [trigParagraph "Sources:",
           Tok.list false 1 false [mkLinkItem ("T", "U")]],
         Tok.hr] := by
  have h := c4_nested_pairs_ignored [Tok.space] [Tok.hr]
    (Tok.blockquote [trigParagraph "Sources:",
      Tok.list false 1 false [mkLinkItem ("T", "U")]])
    (by decide) (by decide)
  exact ⟨h.1.trans rfl, h.2.trans rfl⟩

/-- C2 counterexample: in a sequence whose first token is a trigger
paragraph not followed by a list, but which elsewhere holds a complete
trigger-plus-list pair, the dangling trigger paragraph is NOT left in
place: the extracted records make `filteredTokens` run the filter, and
the filter drops the dangling paragraph too. -/
theorem c2_counterexample :
    isTrigger (trigParagraph "Sources: dangling") = true
    ∧ isListTok (trigParagraph "Sources:") = false
    ∧ trigParagraph "Sources: dangling" ∉ filteredTokens
        [trigParagraph "Sources: dangling", trigParagraph "Sources:",
         Tok.list false 1 false [mkLinkItem ("T", "U")]] := by
  refine ⟨by decide, by decide, ?_⟩
  rw [show filteredTokens
      [trigParagraph "Sources: dangling", trigParagraph "Sources:",
       Tok.list false 1 false [mkLinkItem ("T", "U")]] = [] from rfl]
  exact List.not_mem_nil _

/-- C2 (amended): a trigger paragraph not immediately followed by a list
yields no extracted record, and `filterOutAllSourcesSections` itself
drops the dangling paragraph; the paragraph is left in place in the
rendered sequence exactly when the whole sequence yields zero extracted
records, because `filteredTokens` then bypasses the filter. -/
theorem c2_dangling_trigger (a b : List Tok) (s : String)
    (hs : isTrigger (trigParagraph s) = true)
    (ha : notTriggerLast a = true)
    (hb : headNotList b = true) :
    extractAllSourcesFromTokens (a ++ trigParagraph s :: b)
      = extractAllSourcesFromTokens a ++ extractAllSourcesFromTokens b
    ∧ filterOutAllSourcesSections (a ++ trigParagraph s :: b)
      = filterOutAllSourcesSections a ++ filterOutAllSourcesSections b
    ∧ (extractAllSourcesFromTokens (a ++ trigParagraph s :: b) = []
        → filteredTokens (a ++ trigParagraph s :: b) = a ++ trigParagraph s :: b) := by
  have h1 := scanSplit a (trigParagraph s :: b) ha
  have h2 : extractAllSourcesFromTokens (trigParagraph s :: b)
        = extractAllSourcesFromTokens b
      ∧ filterOutAllSourcesSections (trigParagraph s :: b)
        = filterOutAllSourcesSections b := by
    cases b with
    | nil => exact ⟨rfl, by simp [filterOutAllSourcesSections, hs]⟩
    | cons u b' =>
      have hu : isListTok u = false := by simpa [headNotList] using hb
      simp [extractAllSourcesFromTokens, filterOutAllSourcesSections, hs, hu]
  refine ⟨by rw [h1.1, h2.1], by rw [h1.2, h2.2], ?_⟩
  intro hz
  simp [filteredTokens, extractedSources, hz]

/-- C2 witness: a dangling trigger between a spacer and a rule yields no
record; with zero records overall it stays in the rendered sequence, yet
the filter alone would have dropped it. -/
theorem c2_witness :
    extractAllSourcesFromTokens
      ([Tok.space] ++ trigParagraph "Sources: dangling" :: [Tok.hr]) = []
    ∧ filterOutAllSourcesSections
      ([Tok.space] ++ trigParagraph "Sources: dangling" :: [Tok.hr])
      = [Tok.space, Tok.hr]
    ∧ filteredTokens ([Tok.space] ++ trigParagraph "Sources: dangling" :: [Tok.hr])
      = [Tok.space] ++ trigParagraph "Sources: dangling" :: [Tok.hr] := by
  have h := c2_dangling_trigger [Tok.space] [Tok.hr] "Sources: dangling"
    (by decide) (by decide) (by decide)
  exact ⟨h.1.trans rfl, h.2.1.trans rfl, h.2.2 (h.1.trans rfl)⟩

/-- C5: whenever extraction yields zero records, the rendered sequence
`filteredTokens` is the original input itself — the filter is bypassed
entirely, so even tokens the filter alone would drop (such as a dangling
trigger paragraph) remain. -/
theorem c5_zero_records_bypass_filter (ts : List Tok)
    (h : extractAllSourcesFromTokens ts = []) :
    filteredTokens ts = ts := by
  simp [filteredTokens, extractedSources, h]

/-- C5 witness: a dangling trigger paragraph would be dropped by the
filter alone, yet the rendered sequence keeps it because zero records
were extracted. -/
theorem c5_witness :
    filterOutAllSourcesSections [trigParagraph "Sources: dangling", Tok.hr]
      = [Tok.hr]
    ∧ filteredTokens [trigParagraph "Sources: dangling", Tok.hr]
      = [trigParagraph "Sources: dangling", Tok.hr] :=
  ⟨rfl, c5_zero_records_bypass_filter _ rfl⟩

/-- C6: on a table token with header texts A and B and one row whose
cells flatten to the texts x,y and He said "hi", the CSV export handler
produces, after the leading UTF-8 BOM character, exactly the string
"A","B"\n"x,y","He said ""hi""" — every field wrapped in double quotes
with embedded quotes doubled, fields joined by commas, rows by newlines —
under the file name table-{id}-{tokenIdx}.csv. -/
theorem c6_csv_export (id : String) (tokenIdx : Nat) :
    exportTableToCSVHandler
      (Tok.table
        [Cell.mk [] "A", Cell.mk [] "B"]
        [none, none]
        [[Cell.mk [Tok.text none "x,y"] "",
          Cell.mk [Tok.text none "He said \"hi\""] ""]])
      id tokenIdx
      = some (bomStr ++ "\"A\",\"B\"\n\"x,y\",\"He said \"\"hi\"\"\"",
              "table-" ++ id ++ "-" ++ toString tokenIdx ++ ".csv") := rfl

/-- C7: evaluation of the cell alignment style at the failing inputs.
The component writes `align ? '' : `text-align: ${align}``, so a column
whose alignment is set renders with an empty style (browser default
alignment) while a column whose alignment entry is null renders with the
bogus style text-align: null — the opposite of the specified behaviour. -/
theorem c7_alignment_inverted :
    cellAlignStyle (some "center") = ""
    ∧ cellAlignStyle none = "text-align: null"
    ∧ tableHeaderCells [some "center", none] [Cell.mk [] "A", Cell.mk [] "B"]
      = [("", []), ("text-align: null", [])] :=
  ⟨rfl, rfl, rfl⟩

/-- C8 counterexample: `headerComponent` does no clamping — for a heading
token of depth 7 the emitted element tag h7 is not a valid heading
level. -/
theorem c8_counterexample : headerComponent 7 ∉ validHeadingTags := by decide

/-- C8 (amended): the renderer emits an element whose tag is the letter h
followed by the token's depth, with no clamping; within the markdown
parser's depth range 1..6 this is a valid heading level, while any depth
outside that range yields an invalid tag. -/
theorem c8_heading_tag_unclamped (d : Nat) :
    headerComponent d = "h" ++ toString d
    ∧ (1 ≤ d → d ≤ 6 → headerComponent d ∈ validHeadingTags) := by
  refine ⟨rfl, ?_⟩
  intro h1 h2
  interval_cases d <;> decide

/-- C8 witness: at depth 3 the emitted tag is h3, a valid heading
level. -/
theorem c8_witness :
    headerComponent 3 = "h3" ∧ headerComponent 3 ∈ validHeadingTags :=
  ⟨(c8_heading_tag_unclamped 3).1.trans rfl,
   (c8_heading_tag_unclamped 3).2 (by decide) (by decide)⟩

/-- The keyed render loop distributes over an append: the suffix renders
from the index following the prefix. -/
theorem renderTokensFrom_append (id : String) (t : Bool) (a b : List Tok) :
    ∀ i, renderTokensFrom id t i (a ++ b)
      = renderTokensFrom id t i a ++ renderTokensFrom id t (i + a.length) b := by
  induction a with
  | nil => intro i; simp [renderTokensFrom]
  | cons x xs ih =>
    intro i
    have harith : i + (xs.length + 1) = i + 1 + xs.length := by omega
    simp only [List.cons_append, renderTokensFrom, List.length_cons, harith,
      List.append_eq]
    rw [ih (i + 1), List.append_assoc]

/-- C9 counterexample: an unrecognized token renders no element, but a
sibling after it is NOT rendered exactly as it would be without the
unknown token — its derived child identifier counts the unknown token's
index (m-1-h instead of m-0-h). -/
theorem c9_counterexample :
    renderToken "m" true 0 (Tok.unknown "custom") = []
    ∧ renderTokens "m" true [Tok.unknown "custom", Tok.heading 1 []]
        ≠ renderTokens "m" true [Tok.heading 1 []] := by
  refine ⟨rfl, ?_⟩
  intro h
  have h2 : ([Output.headingEl "h1" "m-1-h" []] : List Output)
      = [Output.headingEl "h1" "m-0-h" []] := h
  injection h2 with h3 h5
  injection h3 with htag hid hch
  exact absurd hid (by decide)

/-- C9 (amended): a token matching no dispatch branch produces no
rendered element and does not halt the loop — every sibling before it is
rendered identically, and every sibling after it is still rendered from
its own token, at its index in the full sequence (which counts the
unknown token), so only the index-derived identifiers differ from the
sequence without the unknown token. -/
theorem c9_unknown_token_skipped (id : String) (t : Bool) (k : String)
    (a c : List Tok) :
    renderToken id t 0 (Tok.unknown k) = []
    ∧ renderTokens id t (a ++ Tok.unknown k :: c)
      = renderTokens id t a ++ renderTokensFrom id t (a.length + 1) c := by
  refine ⟨rfl, ?_⟩
  rw [renderTokens, renderTokensFrom_append id t a (Tok.unknown k :: c) 0]
  simp [renderTokensFrom, renderToken, renderTokens]

/-- C10: the citation card shows the record's title unchanged when its
length is at most 48 characters, and the first 45 characters followed by
an ellipsis marker when the length exceeds 48. -/
theorem c10_citation_title_truncation (title : String) :
    (title.length ≤ 48 → citationTitle title = title)
    ∧ (48 < title.length
        → citationTitle title = (title.toList.take 45).asString ++ "...") := by
  constructor
  · intro h
    simp only [citationTitle]
    rw [if_neg (by omega)]
  · intro h
    simp only [citationTitle]
    rw [if_pos (by omega)]

/-- C10 witness: a 60-character title is cut to its first 45 characters
plus the ellipsis marker; a 48-character title is unchanged. -/
theorem c10_witness :
    citationTitle "abcdefghijabcdefghijabcdefghijabcdefghijabcdefghijabcdefghij"
      = "abcdefghijabcdefghijabcdefghijabcdefghijabcde..."
    ∧ citationTitle "abcdefghijabcdefghijabcdefghijabcdefghijabcdefgh"
      = "abcdefghijabcdefghijabcdefghijabcdefghijabcdefgh" :=
  ⟨((c10_citation_title_truncation
      "abcdefghijabcdefghijabcdefghijabcdefghijabcdefghijabcdefghij").2
      (by decide)).trans rfl,
   (c10_citation_title_truncation
      "abcdefghijabcdefghijabcdefghijabcdefghijabcdefgh").1 (by decide)⟩
